import Mathlib

/-!
Verification development for `src/models/fields.py` (neural implicit-surface
model components: `SDFNetwork`, `RenderingNetwork`, `NeRF`,
`SingleVarianceNetwork`).

Shallow embedding conventions:

* A batch tensor of shape `[B, d]` is a `List (List α)` with `B` rows.
* Machine floats are idealised as an arbitrary `Field α`; claims whose content
  involves genuinely transcendental values (`torch.sigmoid`, `torch.exp`,
  `np.sqrt`) are stated at `α := ℝ` with the exact real functions, while
  structural / algebraic claims are stated at `α := ℚ` so that concrete
  instances evaluate by `rfl` / `decide`.
* Fallible tensor operations (shape-checked matrix application, `torch.cat`,
  broadcasting) return `Except String _`; a Python exception is `Except.error`.
* `torch.nn.init.normal_(w, mean, std)` is modelled by supplying an oracle
  `g : ℕ → ℕ → ℕ → α` of i.i.d. standard-normal draws (`g l i j` is the draw
  used for entry `(i, j)` of layer `l`) and setting the entry to
  `mean + std * g l i j`.  The default `nn.Linear` initialisation is likewise
  modelled by draw oracles, since no claim depends on its distribution.
* `nn.utils.weight_norm` reparametrises a layer but leaves its effective
  weight unchanged at initialisation time; layers are therefore modelled by
  their effective weight and bias, and the `weight_norm` flag has no effect on
  the model.
* The positional embedder `get_embedder` is an external collaborator (it lives
  in `models/embedder.py`, outside this repository's modelled core per the
  spec); it is passed in as an abstract row function together with its declared
  output dimensionality `input_ch`.
* The `Softplus(beta=100)` activation of `SDFNetwork` is transcendental and is
  carried as an abstract field `activation`; every claim about `SDFNetwork`
  holds for an arbitrary activation, so nothing is lost.
-/

namespace Fields

/-- A batch tensor of shape `[B, d]`: `B` rows, each a list of entries. -/
abbrev Mat (α : Type) := List (List α)

variable {α : Type}

/-- Entrywise map over a batch tensor. -/
def mapMat (f : α → α) (m : Mat α) : Mat α :=
  m.map (fun r => r.map f)

/-- Lookup of entry `(i, j)` of a matrix, defaulting to `0` out of range. -/
def entry [Zero α] (m : Mat α) (i j : ℕ) : α :=
  (m.getD i []).getD j 0

/-- Effectful map over a list in the `Except` monad (the semantics of
`List.mapM`, written by structural recursion so that proofs unfold it). -/
def mapE {β γ : Type} (f : β → Except String γ) : List β → Except String (List γ)
  | [] => Except.ok []
  | a :: l => (f a).bind (fun b => (mapE f l).bind (fun bs => Except.ok (b :: bs)))

/-- PyTorch elementwise binary broadcasting between a row of a 2-D tensor and a
1-D tensor: sizes must match, or either side must have size 1. -/
def bcastOp [Zero α] (f : α → α → α) (u v : List α) : Except String (List α) :=
  if u.length = v.length then
    Except.ok (List.zipWith f u v)
  else if u.length = 1 then
    Except.ok (v.map (fun b => f (u.headD 0) b))
  else if v.length = 1 then
    Except.ok (u.map (fun a => f a (v.headD 0)))
  else
    Except.error "The size of tensor a must match the size of tensor b"

/-- Row-wise broadcast multiplication `m * s` of a `[B, d]` tensor with a 1-D
tensor (used for `inputs * self.scale`). -/
def bcastMulMat [Mul α] [Zero α] (m : Mat α) (s : List α) : Except String (Mat α) :=
  mapE (fun r => bcastOp (fun a b => a * b) r s) m

/-- Row-wise broadcast division `m / s` of a `[B, d]` tensor by a 1-D tensor
(used for `x[:, :1] / self.scale`). -/
def bcastDivMat [Div α] [Zero α] (m : Mat α) (s : List α) : Except String (Mat α) :=
  mapE (fun r => bcastOp (fun a b => a / b) r s) m

/-- `torch.cat([a, b], dim=-1)` on two 2-D tensors: row counts must agree. -/
def matCat (a b : Mat α) : Except String (Mat α) :=
  if a.length = b.length then
    Except.ok (List.zipWith (fun r1 r2 => r1 ++ r2) a b)
  else
    Except.error "Sizes of tensors must match except in dimension 1"

/-- An affine layer (`nn.Linear`), recorded by its effective weight (stored as
`out_features` rows of length `in_features`, as in PyTorch) and bias. -/
structure Linear (α : Type) where
  in_features : ℕ
  out_features : ℕ
  weight : List (List α)
  bias : List α

/-- Dot product of two equal-length rows. -/
def dotL [Field α] (u v : List α) : α :=
  (List.zipWith (fun a b => a * b) u v).sum

/-- Apply an affine layer to one input row; PyTorch checks the input's last
dimension against `in_features` and raises on mismatch. -/
def Linear.applyRow [Field α] (lin : Linear α) (v : List α) : Except String (List α) :=
  if v.length = lin.in_features then
    Except.ok (List.zipWith (fun wrow b => dotL wrow v + b) lin.weight lin.bias)
  else
    Except.error "mat1 and mat2 shapes cannot be multiplied"

/-- Apply an affine layer to a batch, row by row. -/
def Linear.applyMat [Field α] (lin : Linear α) (m : Mat α) : Except String (Mat α) :=
  mapE (fun r => lin.applyRow r) m

/-- Build an `nn.Linear` with entry-level initialisers `w i j` and `b i`. -/
def mkLinear (inF outF : ℕ) (w : ℕ → ℕ → α) (b : ℕ → α) : Linear α :=
  { in_features := inF
    out_features := outF
    weight := (List.range outF).map (fun i => (List.range inF).map (fun j => w i j))
    bias := (List.range outF).map b }

/-- `max(xs, default=d)` over the integers, as Python computes it when the
sequence is guaranteed nonnegative (which the reachable uses here are). -/
def listMaxD (xs : List ℤ) (d : ℤ) : ℤ := xs.foldl max d

/-- `min(xs, default=d)` over the integers (same remark as `listMaxD`). -/
def listMinD (xs : List ℤ) (d : ℤ) : ℤ := xs.foldl min d

/-!  ## SDFNetwork  -/

/-- The state of a constructed `SDFNetwork` (`fields.py` lines 7-85): the
attributes assigned in `__init__` that `forward`/`sdf`/`gradient` consult,
plus the three feature-fusion layers of lines 79-82. -/
structure SDFNet (α : Type) where
  d_in : ℕ
  d_out : ℕ
  d_hidden : ℕ
  n_layers : ℕ
  skip_in : List ℤ
  multires : ℕ
  feature_dim : ℕ
  embed_fn_fine : List α → List α
  embedded_input_dim : ℕ
  scale : List α
  num_layers : ℕ
  layers : List (Linear α)
  feature_input_dim : ℕ
  linear_pe : Linear α
  linear_k : Linear α
  linear_fused : Linear α
  activation : α → α

namespace SDFNetwork

/-- The `dims` list of `fields.py` line 45:
`[embedded_input_dim + feature_dim] + [d_hidden] * n_layers + [d_out]`. -/
def sdfDims (embedded feature_dim d_hidden d_out n_layers : ℕ) : List ℕ :=
  (embedded + feature_dim) :: (List.replicate n_layers d_hidden ++ [d_out])

/-- Weight entry `(i, j)` of layer `l` under geometric initialisation
(`fields.py` lines 56-74).  `meanLast n` stands for `np.sqrt(np.pi)/np.sqrt(n)`
and `stdHidden n` for `np.sqrt(2)/np.sqrt(n)`; both are instantiated with the
exact real square roots where a claim depends on them.  `g` is the
standard-normal draw oracle. -/
def geomW [Field α] (skip_in : List ℤ) (multires num_layers : ℕ)
    (inside_outside : Bool) (embedded in_dim out_dim : ℕ)
    (meanLast stdHidden : ℕ → α) (g : ℕ → ℕ → ℕ → α) (l i j : ℕ) : α :=
  if l = num_layers - 2 then
    (if inside_outside then -(meanLast in_dim) else meanLast in_dim)
      + (1 / 10000 : α) * g l i j
  else if 0 < multires ∧ l = 0 then
    (if 3 ≤ j then 0 else stdHidden out_dim * g l i j)
  else if 0 < multires ∧ (l : ℤ) ∈ skip_in then
    (if 3 < embedded ∧ in_dim - (embedded - 3) ≤ j then 0
     else stdHidden out_dim * g l i j)
  else
    stdHidden out_dim * g l i j

/-- Bias entry of layer `l` under geometric initialisation: the final layer
gets `±bias` (`fields.py` lines 60/63), every other layer gets `0`. -/
def geomB [Field α] (num_layers : ℕ) (inside_outside : Bool) (bias : α)
    (l : ℕ) : α :=
  if l = num_layers - 2 then (if inside_outside then bias else -bias) else 0

/-- Layer `l` of the stack built by the loop of `fields.py` lines 50-77.
`wDef`/`bDef` are the draw oracles for the default `nn.Linear` initialisation
used when `geometric_init` is off. -/
def buildLayer [Field α] (d_hidden d_out n_layers : ℕ) (skip_in : List ℤ)
    (multires : ℕ) (bias : α) (geometric_init inside_outside : Bool)
    (feature_dim embedded : ℕ) (meanLast stdHidden : ℕ → α)
    (g wDef : ℕ → ℕ → ℕ → α) (bDef : ℕ → ℕ → α) (l : ℕ) : Linear α :=
  let dims := sdfDims embedded feature_dim d_hidden d_out n_layers
  let in_dim := dims.getD l 0 + (if (l : ℤ) ∈ skip_in then embedded else 0)
  let out_dim := dims.getD (l + 1) 0
  if geometric_init then
    mkLinear in_dim out_dim
      (geomW skip_in multires (n_layers + 2) inside_outside embedded in_dim
        out_dim meanLast stdHidden g l)
      (fun _ => geomB (n_layers + 2) inside_outside bias l)
  else
    mkLinear in_dim out_dim (wDef l) (bDef l)

/-- `SDFNetwork.__init__` (`fields.py` lines 8-85).  The two validation checks
of lines 24-27 are modelled first; an `Except.error` is a raised `ValueError`
(construction is all-or-nothing: nothing of the network exists on the error
path).  `embed`/`input_ch` are the pair returned by the external
`get_embedder(multires, input_dims=d_in)`, consulted only when
`multires > 0`; otherwise the embedder is the identity and the embedded width
is `d_in` (lines 37-43).  `act` is the `Softplus(beta=100)` activation. -/
def construct [Field α] (d_in d_out d_hidden n_layers : ℕ) (skip_in : List ℤ)
    (multires : ℕ) (bias : α) (scale : List α)
    (geometric_init weight_norm inside_outside : Bool) (feature_dim : ℕ)
    (embed : List α → List α) (input_ch : ℕ) (act : α → α)
    (meanLast stdHidden : ℕ → α) (g wDef : ℕ → ℕ → ℕ → α) (bDef : ℕ → ℕ → α) :
    Except String (SDFNet α) :=
  if listMaxD skip_in (-1) ≥ (n_layers : ℤ) ∨ listMinD skip_in (n_layers : ℤ) < 0 then
    Except.error "skip_in indices must be within range"
  else if skip_in = [] ∨ listMaxD skip_in (-1) ≥ (n_layers : ℤ) - 1 then
    Except.error "skip_in must contain valid indices less than n_layers-1"
  else
    Except.ok
      { d_in := d_in
        d_out := d_out
        d_hidden := d_hidden
        n_layers := n_layers
        skip_in := skip_in
        multires := multires
        feature_dim := feature_dim
        embed_fn_fine := if 0 < multires then embed else (fun x => x)
        embedded_input_dim := if 0 < multires then input_ch else d_in
        scale := scale
        num_layers := n_layers + 2
        layers := (List.range (n_layers + 1)).map
          (buildLayer d_hidden d_out n_layers skip_in multires bias
            geometric_init inside_outside feature_dim
            (if 0 < multires then input_ch else d_in) meanLast
            stdHidden g wDef bDef)
        feature_input_dim := 768
        linear_pe := mkLinear (if 0 < multires then input_ch else d_in) 768
          (wDef 1000) (bDef 1000)
        linear_k := mkLinear 768 768 (wDef 1001) (bDef 1001)
        linear_fused := mkLinear 768 feature_dim (wDef 1002) (bDef 1002)
        activation := act }

/-- The layer loop of `fields.py` lines 97-102, started at layer index `l`.
`s2` stands for the irrational constant `np.sqrt(2)` of line 99; every claim
below is independent of its value.  At a skip layer the embedded (scaled)
inputs `emb` are re-concatenated and the whole concatenation is divided by
`np.sqrt(2)`; the activation is applied after every layer except the last. -/
def sdfLoop [Field α] (s2 : α) (skip_in : List ℤ) (num_layers : ℕ)
    (act : α → α) (emb : Mat α) : ℕ → List (Linear α) → Mat α → Except String (Mat α)
  | _, [], x => Except.ok x
  | l, lin :: rest, x =>
    (if (l : ℤ) ∈ skip_in then
        (matCat x emb).map (fun m => mapMat (fun a => a / s2) m)
      else Except.ok x).bind (fun x =>
    (lin.applyMat x).bind (fun x =>
    sdfLoop s2 skip_in num_layers act emb (l + 1) rest
      (if l < num_layers - 2 then mapMat act x else x)))

/-- The final line of `SDFNetwork.forward` (`fields.py` line 103):
`torch.cat([x[:, :1] / self.scale, x[:, 1:]], dim=-1)` — the single distance
column is broadcast-divided by the whole scale tensor and the remaining
columns are concatenated unchanged. -/
def finalize [Field α] (scale : List α) (x : Mat α) : Except String (Mat α) :=
  (bcastDivMat (x.map (fun r => r.take 1)) scale).bind (fun left =>
  matCat left (x.map (fun r => r.drop 1)))

/-- `SDFNetwork.forward` (`fields.py` lines 87-103).  Line 88 rebinds `inputs`
to `inputs * self.scale`; when `features is None`, a zero block of shape
`[inputs.shape[0], feature_dim]` is concatenated instead (lines 92-95); the
final line is `finalize`. -/
def forward [Field α] (s2 : α) (net : SDFNet α) (inputs0 : Mat α)
    (features : Option (Mat α)) : Except String (Mat α) :=
  (bcastMulMat inputs0 net.scale).bind (fun inputs =>
  ((matCat (inputs.map net.embed_fn_fine)
      (match features with
        | some f => f
        | none => List.replicate inputs.length (List.replicate net.feature_dim (0 : α)))).bind
    (fun x =>
      sdfLoop s2 net.skip_in net.num_layers net.activation
        (inputs.map net.embed_fn_fine) 0 net.layers x)).bind
  (fun x => finalize net.scale x))

/-- `SDFNetwork.sdf` (`fields.py` lines 105-106): the first output column. -/
def sdf [Field α] (s2 : α) (net : SDFNet α) (x : Mat α)
    (features : Option (Mat α)) : Except String (Mat α) :=
  (forward s2 net x features).map (fun m => m.map (fun r => r.take 1))

/-- `SDFNetwork.gradient` (`fields.py` lines 108-119).  `D` is an abstract
differential operator standing for `torch.autograd.grad` applied to the scalar
`sdf` output (the auto-differentiation substrate is external per the spec);
the result is `unsqueeze(1)`-ed, wrapping each batch row in a singleton. -/
def gradient [Field α] (s2 : α)
    (D : (Mat α → Except String (Mat α)) → Mat α → Mat α) (net : SDFNet α)
    (x : Mat α) (features : Option (Mat α)) : List (List (List α)) :=
  (D (fun y => sdf s2 net y features) x).map (fun r => [r])

end SDFNetwork

/-!  ## RenderingNetwork  -/

/-- `nn.ReLU` / `F.relu`. -/
def relu [LinearOrder α] [Zero α] (x : α) : α := max x 0

/-- `torch.sigmoid`, exactly: `1 / (1 + exp (-x))`. -/
noncomputable def sigmoidR (x : ℝ) : ℝ := 1 / (1 + Real.exp (-x))

/-- The state of a constructed `RenderingNetwork` (`fields.py` lines 121-158).
The source stores the layers as attributes `lin0 … lin{n}` via `setattr`; they
are modelled as a list indexed by layer number. -/
structure RenderNet where
  mode : String
  squeeze_out : Bool
  embedview_fn : Option (List ℝ → List ℝ)
  num_layers : ℕ
  layers : List (Linear ℝ)

namespace RenderingNetwork

/-- The first entry of the Rendering Network `dims` list (`fields.py` lines
138 and 144): `d_in + d_feature + image_feature_dim`, plus `input_ch - 3`
when a view embedding is configured. -/
def renderDims0 (d_feature d_in image_feature_dim multires_view input_ch : ℕ) : ℕ :=
  d_in + d_feature + image_feature_dim
    + (if 0 < multires_view then input_ch - 3 else 0)

/-- The full Rendering Network `dims` list. -/
def renderDims (d_feature d_in d_out d_hidden n_layers image_feature_dim
    multires_view input_ch : ℕ) : List ℕ :=
  renderDims0 d_feature d_in image_feature_dim multires_view input_ch
    :: (List.replicate n_layers d_hidden ++ [d_out])

/-- `RenderingNetwork.__init__` (`fields.py` lines 122-158).
`dims = [d_in + d_feature + image_feature_dim] + [d_hidden]*n_layers + [d_out]`
and, when `multires_view > 0`, `dims[0] += (input_ch - 3)` where
`embed_view`/`input_ch` is the pair returned by the external
`get_embedder(multires_view)` (whose declared width satisfies `input_ch ≥ 3`).
Note that `mode` is stored but never consulted while sizing the layers. -/
def construct (d_feature : ℕ) (mode : String) (d_in d_out d_hidden n_layers : ℕ)
    (weight_norm : Bool) (multires_view : ℕ) (squeeze_out : Bool)
    (image_feature_dim : ℕ) (embed_view : List ℝ → List ℝ) (input_ch : ℕ)
    (wDef : ℕ → ℕ → ℕ → ℝ) (bDef : ℕ → ℕ → ℝ) : RenderNet :=
  { mode := mode
    squeeze_out := squeeze_out
    embedview_fn := if 0 < multires_view then some embed_view else none
    num_layers := n_layers + 2
    layers := (List.range (n_layers + 1)).map
      (fun l => mkLinear
        ((renderDims d_feature d_in d_out d_hidden n_layers image_feature_dim
          multires_view input_ch).getD l 0)
        ((renderDims d_feature d_in d_out d_hidden n_layers image_feature_dim
          multires_view input_ch).getD (l + 1) 0)
        (wDef l) (bDef l)) }

/-- The mode dispatch of `fields.py` lines 164-171: `rendering_input` is the
mode-selected concatenation, and stays `None` on an unrecognised mode. -/
def renderInput (mode : String)
    (points normals view_dirs feature_vectors features : Mat ℝ) :
    Except String (Option (Mat ℝ)) :=
  if mode = "idr" then
    (matCat points view_dirs).bind (fun a =>
    (matCat a normals).bind (fun a =>
    (matCat a feature_vectors).bind (fun a =>
    (matCat a features).map some)))
  else if mode = "no_view_dir" then
    (matCat points normals).bind (fun a =>
    (matCat a feature_vectors).bind (fun a =>
    (matCat a features).map some))
  else if mode = "no_normal" then
    (matCat points view_dirs).bind (fun a =>
    (matCat a feature_vectors).bind (fun a =>
    (matCat a features).map some))
  else
    Except.ok none

/-- The layer loop of `fields.py` lines 175-181.  Applying a layer to `None`
(the unrecognised-mode case) is the `TypeError` PyTorch raises there. -/
noncomputable def renderLoop (num_layers : ℕ) :
    ℕ → List (Linear ℝ) → Option (Mat ℝ) → Except String (Option (Mat ℝ))
  | _, [], x => Except.ok x
  | _, _ :: _, none => Except.error "TypeError: linear applied to None"
  | l, lin :: rest, some m =>
    (lin.applyMat m).bind (fun y =>
    renderLoop num_layers (l + 1) rest
      (some (if l < num_layers - 2 then mapMat relu y else y)))

/-- The view-direction embedding step of `fields.py` lines 161-162: applied
only when an embedder was configured. -/
def applyEmbedView (o : Option (List ℝ → List ℝ)) (v : Mat ℝ) : Mat ℝ :=
  match o with
  | some f => v.map f
  | none => v

/-- The squeeze step of `fields.py` lines 183-184: `torch.sigmoid` entrywise;
applying it to `None` (the unrecognised-mode fall-through) raises. -/
noncomputable def squeezeStep : Option (Mat ℝ) → Except String (Option (Mat ℝ))
  | some m => Except.ok (some (mapMat sigmoidR m))
  | none => Except.error "TypeError: sigmoid of None"

/-- `RenderingNetwork.forward` (`fields.py` lines 160-185): embed the view
directions when configured, build the mode-selected input, run the layers with
ReLU between them, and squash with `torch.sigmoid` when `squeeze_out`.  The
result is `ok (some _)` on success and `ok none` exactly when the Python code
would fall through and return `None`. -/
noncomputable def forward (net : RenderNet)
    (points normals view_dirs feature_vectors features : Mat ℝ) :
    Except String (Option (Mat ℝ)) :=
  (renderInput net.mode points normals (applyEmbedView net.embedview_fn view_dirs)
    feature_vectors features).bind (fun ri =>
  (renderLoop net.num_layers 0 net.layers ri).bind (fun x =>
  if net.squeeze_out then squeezeStep x else Except.ok x))

theorem applyEmbedView_if (c : Prop) [Decidable c] (ev : List ℝ → List ℝ)
    (v : Mat ℝ) :
    applyEmbedView (if c then some ev else none) v
      = if c then v.map ev else v := by
  split_ifs with h <;> rfl

end RenderingNetwork

/-!  ## NeRF  -/

/-- The state of a constructed `NeRF` (`fields.py` lines 187-235).  The four
head layers exist only on the branch of `use_viewdirs` that creates them
(lines 228-233); accessing a missing one is an `AttributeError`. -/
structure NeRFNet (α : Type) where
  depth : ℕ
  width : ℕ
  d_in : ℕ
  d_in_view : ℕ
  input_ch : ℕ
  input_ch_view : ℕ
  embed_fn : Option (List α → List α)
  embed_fn_view : Option (List α → List α)
  skips : List ℕ
  use_viewdirs : Bool
  pts_linears : List (Linear α)
  views_linears : List (Linear α)
  feature_linear : Option (Linear α)
  alpha_linear : Option (Linear α)
  rgb_linear : Option (Linear α)
  output_linear : Option (Linear α)

/-- Apply an optionally-present head layer; a missing attribute raises. -/
def applyOpt [Field α] (o : Option (Linear α)) (m : Mat α) :
    Except String (Mat α) :=
  match o with
  | some lin => lin.applyMat m
  | none => Except.error "AttributeError"

namespace NeRF

/-- `NeRF.__init__` (`fields.py` lines 188-235).  `embed`/`input_ch` and
`embed_view`/`input_ch_view` are the external `get_embedder` results for the
point and view branches. -/
def construct [Field α] (depth width d_in d_in_view multires multires_view
    output_ch : ℕ) (skips : List ℕ) (use_viewdirs : Bool)
    (embed : List α → List α) (input_ch : ℕ)
    (embed_view : List α → List α) (input_ch_view : ℕ)
    (wDef : ℕ → ℕ → ℕ → α) (bDef : ℕ → ℕ → α) : NeRFNet α :=
  let ich := if 0 < multires then input_ch else 3
  let ichv := if 0 < multires_view then input_ch_view else 3
  { depth := depth
    width := width
    d_in := d_in
    d_in_view := d_in_view
    input_ch := ich
    input_ch_view := ichv
    embed_fn := if 0 < multires then some embed else none
    embed_fn_view := if 0 < multires_view then some embed_view else none
    skips := skips
    use_viewdirs := use_viewdirs
    pts_linears := mkLinear ich width (wDef 0) (bDef 0) ::
      (List.range (depth - 1)).map (fun i =>
        if i ∈ skips then
          mkLinear (width + ich) width (wDef (i + 1)) (bDef (i + 1))
        else
          mkLinear width width (wDef (i + 1)) (bDef (i + 1)))
    views_linears := [mkLinear (ichv + width) (width / 2) (wDef 500) (bDef 500)]
    feature_linear :=
      if use_viewdirs then some (mkLinear width width (wDef 600) (bDef 600)) else none
    alpha_linear :=
      if use_viewdirs then some (mkLinear width 1 (wDef 601) (bDef 601)) else none
    rgb_linear :=
      if use_viewdirs then some (mkLinear (width / 2) 3 (wDef 602) (bDef 602)) else none
    output_linear :=
      if use_viewdirs then none else some (mkLinear width output_ch (wDef 603) (bDef 603)) }

/-- The point-layer loop of `fields.py` lines 244-248: apply, ReLU, and after
a layer whose index is in `skips` re-concatenate the embedded points in front. -/
def ptsLoop [Field α] [LinearOrder α] (skips : List ℕ) (pts : Mat α) :
    ℕ → List (Linear α) → Mat α → Except String (Mat α)
  | _, [], h => Except.ok h
  | i, lin :: rest, h =>
    (lin.applyMat h).bind (fun h =>
    (if i ∈ skips then matCat pts (mapMat relu h) else Except.ok (mapMat relu h)).bind
      (fun h => ptsLoop skips pts (i + 1) rest h))

/-- The view-layer loop of `fields.py` lines 255-257. -/
def viewsLoop [Field α] [LinearOrder α] :
    List (Linear α) → Mat α → Except String (Mat α)
  | [], h => Except.ok h
  | lin :: rest, h =>
    (lin.applyMat h).bind (fun h => viewsLoop rest (mapMat relu h))

/-- `NeRF.forward` (`fields.py` lines 237-262).  When `use_viewdirs` is false
the source hits `assert False` (line 262): the non-view-conditioned output
path is unimplemented and the call raises. -/
def forward [Field α] [LinearOrder α] (net : NeRFNet α)
    (input_pts input_views : Mat α) : Except String (Mat α × Mat α) :=
  let pts := match net.embed_fn with
    | some f => input_pts.map f
    | none => input_pts
  let views := match net.embed_fn_view with
    | some f => input_views.map f
    | none => input_views
  (ptsLoop net.skips pts 0 net.pts_linears pts).bind (fun h =>
  if net.use_viewdirs then
    (applyOpt net.alpha_linear h).bind (fun alpha =>
    (applyOpt net.feature_linear h).bind (fun feature =>
    (matCat feature views).bind (fun h =>
    (viewsLoop net.views_linears h).bind (fun h =>
    (applyOpt net.rgb_linear h).map (fun rgb => (alpha, rgb))))))
  else
    Except.error "AssertionError")

end NeRF

/-!  ## SingleVarianceNetwork  -/

/-- `torch.ones([r, c])`. -/
def onesMat [One α] (r c : ℕ) : Mat α :=
  List.replicate r (List.replicate c 1)

namespace SingleVarianceNetwork

/-- `SingleVarianceNetwork.forward` (`fields.py` lines 269-270):
`torch.ones([len(x), 1]) * torch.exp(self.variance * 10.0)`. -/
noncomputable def forward (variance : ℝ) (x : Mat ℝ) : Mat ℝ :=
  mapMat (fun a => a * Real.exp (variance * 10)) (onesMat x.length 1)

end SingleVarianceNetwork

/-!  ## Basic lemmas about the embedding primitives  -/

theorem okBind {ε β γ : Type} (b : β) (g : β → Except ε γ) :
    (Except.ok b).bind g = g b := rfl

theorem errBind {ε β γ : Type} (e : ε) (g : β → Except ε γ) :
    (Except.error e).bind g = Except.error e := rfl

theorem mapE_ok_length {β γ : Type} (f : β → Except String γ) :
    ∀ (l : List β) (l2 : List γ), mapE f l = Except.ok l2 → l2.length = l.length := by
  intro l
  induction l with
  | nil =>
    intro l2 h
    simp only [mapE] at h
    cases h
    rfl
  | cons a t ih =>
    intro l2 h
    simp only [mapE] at h
    cases hfa : f a with
    | error e => rw [hfa, errBind] at h; cases h
    | ok b =>
      rw [hfa, okBind] at h
      cases hmt : mapE f t with
      | error e => rw [hmt, errBind] at h; cases h
      | ok bs =>
        rw [hmt, okBind] at h
        cases h
        simp [ih bs hmt]

/-!  ## C5: zero-feature default of `SDFNetwork.forward`  -/

/-- C5 (confirmed): for every input batch `x`, `SDFNetwork.forward` (and hence
`sdf`) called with `features=None` returns exactly the same result as when
called with an explicit all-zero feature tensor of shape
`[batch size, feature_dim]`. -/
theorem C5_zero_feature_default (s2 : ℚ) (net : SDFNet ℚ) (x : Mat ℚ) :
    SDFNetwork.forward s2 net x none
      = SDFNetwork.forward s2 net x
          (some (List.replicate x.length (List.replicate net.feature_dim 0))) ∧
    SDFNetwork.sdf s2 net x none
      = SDFNetwork.sdf s2 net x
          (some (List.replicate x.length (List.replicate net.feature_dim 0))) := by
  have hf : SDFNetwork.forward s2 net x none
      = SDFNetwork.forward s2 net x
          (some (List.replicate x.length (List.replicate net.feature_dim 0))) := by
    unfold SDFNetwork.forward
    cases h : bcastMulMat x net.scale with
    | error e => rfl
    | ok scaled =>
      rw [okBind, okBind, mapE_ok_length _ x scaled h]
  exact ⟨hf, by unfold SDFNetwork.sdf; rw [hf]⟩

/-!  ## C10: the feature-fusion layers never influence any output  -/

/-- C10 (confirmed): `linear_pe`, `linear_k` and `linear_fused` are
constructed but never read by `forward`, `sdf` or `gradient`: replacing them
by arbitrary other layers (all other parameters and inputs equal) leaves all
three results unchanged. -/
theorem C10_fusion_layers_unused (s2 : ℚ) (net : SDFNet ℚ)
    (pe1 k1 f1 pe2 k2 f2 : Linear ℚ) (x : Mat ℚ) (features : Option (Mat ℚ))
    (D : (Mat ℚ → Except String (Mat ℚ)) → Mat ℚ → Mat ℚ) :
    (SDFNetwork.forward s2
        { net with linear_pe := pe1, linear_k := k1, linear_fused := f1 } x features
      = SDFNetwork.forward s2
        { net with linear_pe := pe2, linear_k := k2, linear_fused := f2 } x features) ∧
    (SDFNetwork.sdf s2
        { net with linear_pe := pe1, linear_k := k1, linear_fused := f1 } x features
      = SDFNetwork.sdf s2
        { net with linear_pe := pe2, linear_k := k2, linear_fused := f2 } x features) ∧
    (SDFNetwork.gradient s2 D
        { net with linear_pe := pe1, linear_k := k1, linear_fused := f1 } x features
      = SDFNetwork.gradient s2 D
        { net with linear_pe := pe2, linear_k := k2, linear_fused := f2 } x features) :=
  ⟨rfl, rfl, rfl⟩

/-!  ## C8: the non-view-conditioned NeRF path fails loudly  -/

theorem bindErrIsOk {ε β γ : Type} (r : Except ε β) (e : ε) :
    (r.bind (fun _ => (Except.error e : Except ε γ))).isOk = false := by
  cases r <;> rfl

theorem nerf_forward_no_viewdirs (net : NeRFNet ℚ) (h : net.use_viewdirs = false)
    (p v : Mat ℚ) : (NeRF.forward net p v).isOk = false := by
  unfold NeRF.forward
  simp only [h, Bool.false_eq_true, if_false]
  exact bindErrIsOk _ _

/-- C8 (confirmed): `NeRF.forward` on a network constructed with
`use_viewdirs=False` always fails (the source hits `assert False`, or an
earlier shape error), for every input; it never returns an output value. -/
theorem C8_nerf_no_viewdirs_fails (depth width d_in d_in_view multires
    multires_view output_ch : ℕ) (skips : List ℕ)
    (embed : List ℚ → List ℚ) (input_ch : ℕ)
    (embed_view : List ℚ → List ℚ) (input_ch_view : ℕ)
    (wDef : ℕ → ℕ → ℕ → ℚ) (bDef : ℕ → ℕ → ℚ) (input_pts input_views : Mat ℚ) :
    (NeRF.forward
      (NeRF.construct depth width d_in d_in_view multires multires_view output_ch
        skips false embed input_ch embed_view input_ch_view wDef bDef)
      input_pts input_views).isOk = false :=
  nerf_forward_no_viewdirs _ rfl input_pts input_views

/-!  ## C9: the variance network broadcasts `exp(10 v)`  -/

/-- C9 (confirmed): `SingleVarianceNetwork.forward x` returns one row per
batch element, every entry equal to `exp(v * 10)`; hence the output is
strictly positive, strictly increasing in `v`, and depends on `x` only
through its batch size. -/
theorem C9_variance_broadcast (v1 v2 : ℝ) (x y : Mat ℝ)
    (h12 : v1 < v2) (hlen : x.length = y.length) :
    SingleVarianceNetwork.forward v1 x
        = List.replicate x.length [Real.exp (v1 * 10)] ∧
    (∀ r ∈ SingleVarianceNetwork.forward v1 x, ∀ e ∈ r, 0 < e) ∧
    (∀ r1 ∈ SingleVarianceNetwork.forward v1 x, ∀ e1 ∈ r1,
      ∀ r2 ∈ SingleVarianceNetwork.forward v2 x, ∀ e2 ∈ r2, e1 < e2) ∧
    SingleVarianceNetwork.forward v1 x = SingleVarianceNetwork.forward v1 y := by
  have hval : ∀ (v : ℝ) (m : Mat ℝ), SingleVarianceNetwork.forward v m
      = List.replicate m.length [Real.exp (v * 10)] := by
    intro v m
    simp [SingleVarianceNetwork.forward, onesMat, mapMat, List.map_replicate]
  refine ⟨hval v1 x, ?_, ?_, by rw [hval, hval, hlen]⟩
  · intro r hr e he
    rw [hval] at hr
    rcases List.eq_of_mem_replicate hr with rfl
    rcases List.mem_singleton.mp he with rfl
    exact Real.exp_pos _
  · intro r1 h1 e1 he1 r2 h2 e2 he2
    rw [hval] at h1 h2
    rcases List.eq_of_mem_replicate h1 with rfl
    rcases List.eq_of_mem_replicate h2 with rfl
    rcases List.mem_singleton.mp he1 with rfl
    rcases List.mem_singleton.mp he2 with rfl
    exact Real.exp_lt_exp.mpr (by linarith)

/-- Witness for C9 at `v1 = 0`, `v2 = 1`, a one-point batch. -/
theorem C9_variance_broadcast_witness :
    SingleVarianceNetwork.forward 0 [[(0 : ℝ)]]
      = List.replicate 1 [Real.exp (0 * 10)] :=
  (C9_variance_broadcast 0 1 [[(0 : ℝ)]] [[(0 : ℝ)]] (by norm_num) rfl).1

/-!  ## C1: skip-index validation at `SDFNetwork` construction  -/

theorem listMaxD_lt_iff : ∀ (xs : List ℤ) (d c : ℤ),
    listMaxD xs d < c ↔ d < c ∧ ∀ x ∈ xs, x < c := by
  intro xs
  induction xs with
  | nil => intro d c; simp [listMaxD]
  | cons a t ih =>
    intro d c
    have h1 : listMaxD (a :: t) d = listMaxD t (max d a) := rfl
    rw [h1, ih]
    simp only [max_lt_iff, List.forall_mem_cons]
    tauto

theorem le_listMinD_iff : ∀ (xs : List ℤ) (d c : ℤ),
    c ≤ listMinD xs d ↔ c ≤ d ∧ ∀ x ∈ xs, c ≤ x := by
  intro xs
  induction xs with
  | nil => intro d c; simp [listMinD]
  | cons a t ih =>
    intro d c
    have h1 : listMinD (a :: t) d = listMinD t (min d a) := rfl
    rw [h1, ih]
    simp only [le_min_iff, List.forall_mem_cons]
    tauto

/-- C1 (corrected): construction succeeds iff the skip set is nonempty and
every skip index lies in `[0, n_layers-2]` (equivalently, is strictly less
than `n_layers - 1`); on success the layer stack has exactly `n_layers + 1`
layers.  The claim's success condition — "at least one index in
`[0, n_layers-2]` and all indices in `[0, n_layers-1]`" — is refuted by
`C1_counterexample`: line 26 of the source raises whenever the *largest* skip
index reaches `n_layers - 1`, even if a smaller valid one exists.  Failure is
an `Except.error` raised before any layer is built, so construction is
all-or-nothing. -/
theorem C1_construct_skip_validation (d_in d_out d_hidden n_layers : ℕ)
    (skip_in : List ℤ) (multires : ℕ) (bias : ℚ) (scale : List ℚ)
    (gi wn io : Bool) (feature_dim : ℕ) (embed : List ℚ → List ℚ) (input_ch : ℕ)
    (act : ℚ → ℚ) (meanLast stdHidden : ℕ → ℚ) (g wDef : ℕ → ℕ → ℕ → ℚ)
    (bDef : ℕ → ℕ → ℚ) :
    ((SDFNetwork.construct d_in d_out d_hidden n_layers skip_in multires bias
        scale gi wn io feature_dim embed input_ch act meanLast stdHidden g wDef
        bDef).isOk = true
      ↔ skip_in ≠ [] ∧ ∀ s ∈ skip_in, 0 ≤ s ∧ s < (n_layers : ℤ) - 1) ∧
    (∀ net, SDFNetwork.construct d_in d_out d_hidden n_layers skip_in multires
        bias scale gi wn io feature_dim embed input_ch act meanLast stdHidden g
        wDef bDef = Except.ok net → net.layers.length = n_layers + 1) := by
  unfold SDFNetwork.construct
  by_cases h1 : listMaxD skip_in (-1) ≥ (n_layers : ℤ)
      ∨ listMinD skip_in (n_layers : ℤ) < 0
  · rw [if_pos h1]
    refine ⟨⟨fun hok => (nomatch hok), fun hrhs => ?_⟩,
      fun net hnet => (nomatch hnet)⟩
    exfalso
    rcases hrhs with ⟨hne, hall⟩
    rcases h1 with hmax | hmin
    · have : listMaxD skip_in (-1) < (n_layers : ℤ) := by
        rw [listMaxD_lt_iff]
        exact ⟨by omega, fun x hx => by have := hall x hx; omega⟩
      omega
    · have : (0 : ℤ) ≤ listMinD skip_in (n_layers : ℤ) := by
        rw [le_listMinD_iff]
        exact ⟨by omega, fun x hx => (hall x hx).1⟩
      omega
  · rw [if_neg h1]
    by_cases h2 : skip_in = [] ∨ listMaxD skip_in (-1) ≥ (n_layers : ℤ) - 1
    · rw [if_pos h2]
      refine ⟨⟨fun hok => (nomatch hok), fun hrhs => ?_⟩,
        fun net hnet => (nomatch hnet)⟩
      exfalso
      rcases hrhs with ⟨hne, hall⟩
      rcases h2 with hempty | hmax
      · exact hne hempty
      · rcases List.exists_mem_of_ne_nil skip_in hne with ⟨s0, hs0⟩
        have hs0' := hall s0 hs0
        have : listMaxD skip_in (-1) < (n_layers : ℤ) - 1 := by
          rw [listMaxD_lt_iff]
          exact ⟨by omega, fun x hx => (hall x hx).2⟩
        omega
    · rw [if_neg h2]
      constructor
      · rw [not_or] at h1 h2
        have hmaxn : listMaxD skip_in (-1) < (n_layers : ℤ) - 1 := by omega
        have hmin : (0 : ℤ) ≤ listMinD skip_in (n_layers : ℤ) := by omega
        rw [listMaxD_lt_iff] at hmaxn
        rw [le_listMinD_iff] at hmin
        exact ⟨fun _ => ⟨h2.1, fun s hs => ⟨hmin.2 s hs, hmaxn.2 s hs⟩⟩,
          fun _ => rfl⟩
      · intro net hnet
        cases hnet
        simp

/-- Counterexample to C1 as stated: with `n_layers = 3` and
`skip_in = [0, 2]`, every skip index lies in `[0, n_layers-1] = [0, 2]` and
index `0` lies in `[0, n_layers-2] = [0, 1]`, so the claim predicts success;
the code raises, because line 26 fires whenever the *largest* skip index
reaches `n_layers - 1`, not only when no index is below `n_layers - 1`. -/
theorem C1_counterexample :
    ((0 : ℤ) ∈ ([0, 2] : List ℤ) ∧ (0 : ℤ) ≤ 0 ∧ (0 : ℤ) ≤ (3 : ℤ) - 2) ∧
    (∀ s ∈ ([0, 2] : List ℤ), 0 ≤ s ∧ s ≤ (3 : ℤ) - 1) ∧
    (SDFNetwork.construct 3 1 4 3 [0, 2] 0 (1/2 : ℚ) [1, 1, 2] true true false
      0 (fun r => r) 3 (fun a => a) (fun _ => 0) (fun _ => 0) (fun _ _ _ => 0)
      (fun _ _ _ => 0) (fun _ _ => 0)).isOk = false := by
  exact ⟨by decide, by decide, by decide⟩

/-- Witness for (the amended) C1: a valid configuration (`n_layers = 3`,
`skip_in = [0]`) constructs successfully. -/
theorem C1_construct_skip_validation_witness :
    (SDFNetwork.construct 3 1 4 3 [0] 0 (1/2 : ℚ) [1, 1, 2] true true false 0
      (fun r => r) 3 (fun a => a) (fun _ => 0) (fun _ => 0) (fun _ _ _ => 0)
      (fun _ _ _ => 0) (fun _ _ => 0)).isOk = true :=
  (C1_construct_skip_validation 3 1 4 3 [0] 0 (1/2 : ℚ) [1, 1, 2] true true
    false 0 (fun r => r) 3 (fun a => a) (fun _ => 0) (fun _ => 0)
    (fun _ _ _ => 0) (fun _ _ _ => 0) (fun _ _ => 0)).1.mpr
    ⟨by decide, by decide⟩

/-!  ## C2: the forward output shape  -/

/-- C2 (code bug): on a valid configuration with the default 3-element
`scale = [1, 1, 2]` (here `d_in = 3`, `d_out = 2`, `n_layers = 2`,
`skip_in = [0]`, `multires = 0`, `feature_dim = 0`, geometric init off, all
default-init draws zero), a forward pass on a batch of one point returns a row
of length `4 = d_out + 2`, not `d_out`: line 103's `x[:, :1] / self.scale`
broadcasts the single distance column against the 3-element scale vector,
yielding 3 columns, concatenated with the remaining `d_out - 1` columns. -/
theorem C2_forward_shape_bug :
    ((SDFNetwork.construct 3 2 2 2 [0] 0 (1/2 : ℚ) [1, 1, 2] false true false 0
        (fun r => r) 3 (fun a => a) (fun _ => 0) (fun _ => 0) (fun _ _ _ => 0)
        (fun _ _ _ => 0) (fun _ _ => 0)).bind
      (fun net => SDFNetwork.forward 1 net [[1, 1, 1]] none)).toOption.map
        (fun m => m.map List.length) = some [2 + 2] ∧
    (2 + 2 : ℕ) ≠ 2 := by
  exact ⟨by decide, by decide⟩

/-!  ## C6: the Rendering Network first-layer input width  -/

/-- Degenerate default layer, used only as the `List.getD` fallback. -/
def trivLin {β : Type} : Linear β :=
  { in_features := 0, out_features := 0, weight := [], bias := [] }

theorem getD_map_range {β : Type} (f : ℕ → β) (n i : ℕ) (d : β) (h : i < n) :
    ((List.range n).map f).getD i d = f i := by
  rw [List.getD_eq_getElem?_getD]
  simp [List.getElem?_map, List.getElem?_range, h]

/-- Modelled from the spec: the first-layer input width the claim describes —
point coords (3) + SDF-feature + image feature, view-direction width (3, or
the embedded width when a view embedding is configured) unless the mode
excludes view directions, and normal width (3) unless the mode excludes
normals.  Missing from `src/`: nothing; this definition exists solely as the
claim side of the refinement comparison in `C6_counterexample`. -/
def specRenderFirstLayerWidth (mode : String)
    (d_feature image_feature_dim multires_view input_ch : ℕ) : ℕ :=
  3 + d_feature + image_feature_dim
    + (if mode = "no_view_dir" then 0
       else if 0 < multires_view then input_ch else 3)
    + (if mode = "no_normal" then 0 else 3)

/-- C6 (corrected, amended form): the constructed first layer's input width is
`d_in + d_feature + image_feature_dim` plus the view-embedding extra
`input_ch - 3` when one is configured — for every mode; the mode selector does
not influence the layer sizes at all (second conjunct).  The claimed
mode-dependent width formula is refuted by `C6_counterexample`. -/
theorem C6_first_layer_width_amended (d_feature : ℕ) (mode : String)
    (d_in d_out d_hidden n_layers : ℕ) (wn : Bool) (multires_view : ℕ)
    (sq : Bool) (ifd : ℕ) (ev : List ℝ → List ℝ) (input_ch : ℕ)
    (w : ℕ → ℕ → ℕ → ℝ) (b : ℕ → ℕ → ℝ) (mode2 : String) :
    ((RenderingNetwork.construct d_feature mode d_in d_out d_hidden n_layers wn
        multires_view sq ifd ev input_ch w b).layers.getD 0 trivLin).in_features
      = d_in + d_feature + ifd + (if 0 < multires_view then input_ch - 3 else 0) ∧
    (RenderingNetwork.construct d_feature mode d_in d_out d_hidden n_layers wn
        multires_view sq ifd ev input_ch w b).layers
      = (RenderingNetwork.construct d_feature mode2 d_in d_out d_hidden n_layers
        wn multires_view sq ifd ev input_ch w b).layers := by
  refine ⟨?_, rfl⟩
  unfold RenderingNetwork.construct
  rw [getD_map_range _ _ _ _ (by omega)]
  rfl

/-- Counterexample to C6 as stated: constructing with `mode = "no_view_dir"`,
`d_in = 3` (the raw point width), no features (`d_feature = 0`,
`image_feature_dim = 0`) and no view embedding yields a first layer of input
width 3, while the claimed mode-dependent formula gives `3 (point) +
3 (normal) = 6`: the constructor never consults the mode, it trusts `d_in`. -/
theorem C6_counterexample :
    ((RenderingNetwork.construct 0 "no_view_dir" 3 3 4 2 true 0 true 0
        (fun r => r) 3 (fun _ _ _ => 0) (fun _ _ => 0)).layers.getD 0
        trivLin).in_features = 3 ∧
    specRenderFirstLayerWidth "no_view_dir" 0 0 0 3 = 6 ∧
    (3 : ℕ) ≠ 6 := by
  exact ⟨by decide, by decide, by decide⟩

/-!  ## C4: the scale round-trip  -/

theorem zipWith_map_ext (f g : ℚ → ℚ → ℚ) (p q : ℚ → ℚ)
    (h : ∀ a b, f (p a) (q b) = g a b) :
    ∀ r s : List ℚ, List.zipWith f (r.map p) (s.map q) = List.zipWith g r s := by
  intro r
  induction r with
  | nil => intro s; simp
  | cons a t ih =>
    intro s
    cases s with
    | nil => simp
    | cons b u => simp [h, ih]

theorem zipWith_right_ext (f g : ℚ → ℚ → ℚ) (q p : ℚ → ℚ)
    (h : ∀ a b, f a (q b) = p (g a b)) :
    ∀ u s : List ℚ, List.zipWith f u (s.map q) = (List.zipWith g u s).map p := by
  intro u
  induction u with
  | nil => intro s; simp
  | cons a t ih =>
    intro s
    cases s with
    | nil => simp
    | cons b v => simp [h, ih]

theorem singleton_of_length_one (r : List ℚ) (h : r.length = 1) :
    ∃ a, r = [a] := by
  cases r with
  | nil => simp at h
  | cons a t =>
    cases t with
    | nil => exact ⟨a, rfl⟩
    | cons b u => simp at h

theorem bcastOp_map_map (f g : ℚ → ℚ → ℚ) (p q : ℚ → ℚ)
    (h : ∀ a b, f (p a) (q b) = g a b) (r s : List ℚ) :
    bcastOp f (r.map p) (s.map q) = bcastOp g r s := by
  unfold bcastOp
  simp only [List.length_map]
  split_ifs with h1 h2 h3
  · exact congrArg Except.ok (zipWith_map_ext f g p q h r s)
  · obtain ⟨a, rfl⟩ := singleton_of_length_one r h2
    refine congrArg Except.ok ?_
    simp only [List.map_map, List.map_cons, List.map_nil, List.headD_cons]
    exact List.map_congr_left (fun b _ => h a b)
  · obtain ⟨b, rfl⟩ := singleton_of_length_one s h3
    refine congrArg Except.ok ?_
    simp only [List.map_map, List.map_cons, List.map_nil, List.headD_cons]
    exact List.map_congr_left (fun a _ => h a b)
  · rfl

theorem bcastOp_map_right (f g : ℚ → ℚ → ℚ) (q p : ℚ → ℚ)
    (h : ∀ a b, f a (q b) = p (g a b)) (u s : List ℚ) :
    bcastOp f u (s.map q) = (bcastOp g u s).map (fun r => r.map p) := by
  unfold bcastOp
  simp only [List.length_map]
  split_ifs with h1 h2 h3
  · exact congrArg Except.ok (zipWith_right_ext f g q p h u s)
  · refine congrArg Except.ok ?_
    simp only [List.map_map]
    exact List.map_congr_left (fun b _ => h _ b)
  · obtain ⟨b, rfl⟩ := singleton_of_length_one s h3
    refine congrArg Except.ok ?_
    simp only [List.map_map, List.headD_cons]
    exact List.map_congr_left (fun a _ => h a b)
  · rfl

theorem mapE_map {β β2 γ : Type} (f : β2 → Except String γ) (g : β → β2) :
    ∀ l : List β, mapE f (l.map g) = mapE (fun a => f (g a)) l := by
  intro l
  induction l with
  | nil => rfl
  | cons a t ih => simp only [List.map_cons, mapE, ih]

theorem mapE_congr {β γ : Type} (f g : β → Except String γ)
    (h : ∀ a, f a = g a) : ∀ l, mapE f l = mapE g l := by
  intro l
  induction l with
  | nil => rfl
  | cons a t ih => simp only [mapE, h, ih]

theorem mapE_map_post {β γ : Type} (f f2 : β → Except String γ) (p : γ → γ)
    (h : ∀ a, f2 a = (f a).map p) :
    ∀ l, mapE f2 l = (mapE f l).map (fun l2 => l2.map p) := by
  intro l
  induction l with
  | nil => rfl
  | cons a t ih =>
    simp only [mapE, h, ih]
    cases f a with
    | error e => rfl
    | ok b =>
      cases mapE f t with
      | error e => rfl
      | ok bs => rfl

theorem bcastOp_ok_length (f : ℚ → ℚ → ℚ) (u s l : List ℚ)
    (h : bcastOp f u s = Except.ok l) :
    l.length = s.length ∨ (s.length = 1 ∧ l.length = u.length ∧ u.length ≠ 1) := by
  unfold bcastOp at h
  split_ifs at h with h1 h2 h3
  · cases h
    left
    simp [List.length_zipWith, h1]
  · cases h
    left
    simp
  · cases h
    right
    exact ⟨h3, by simp, h2⟩

theorem c4_final_zip (k : ℚ) (s : List ℚ) :
    ∀ (raw left : Mat ℚ),
      mapE (fun r => bcastOp (fun a b => a / b) r s)
          (raw.map (fun r => r.take 1)) = Except.ok left →
      List.zipWith (fun r1 r2 => r1 ++ r2)
          (left.map (fun r => r.map (fun a => a / k)))
          (raw.map (fun r => r.drop 1))
        = (List.zipWith (fun r1 r2 => r1 ++ r2) left
            (raw.map (fun r => r.drop 1))).map
            (fun r => (r.take s.length).map (fun a => a / k) ++ r.drop s.length) := by
  intro raw
  induction raw with
  | nil =>
    intro left h
    simp only [List.map_nil, mapE] at h
    cases h
    rfl
  | cons r t ih =>
    intro left h
    simp only [List.map_cons, mapE] at h
    cases hr : bcastOp (fun a b => a / b) (r.take 1) s with
    | error e => rw [hr, errBind] at h; cases h
    | ok l0 =>
      rw [hr, okBind] at h
      cases ht : mapE (fun r => bcastOp (fun a b => a / b) r s)
          (t.map (fun r => r.take 1)) with
      | error e => rw [ht, errBind] at h; cases h
      | ok lt =>
        rw [ht, okBind] at h
        cases h
        simp only [List.map_cons, List.zipWith_cons_cons]
        rw [ih lt ht]
        congr 1
        rcases bcastOp_ok_length _ _ _ _ hr with hlen | ⟨hs1, hlu, hu1⟩
        · rw [List.take_left' hlen, List.drop_left' hlen]
        · have hu0 : (r.take 1).length = 0 := by
            have h1 : (r.take 1).length ≤ 1 := by
              simp [List.length_take]
            omega
          have hr0 : r = [] := by
            cases r with
            | nil => rfl
            | cons a t2 => simp at hu0
          subst hr0
          have hl0 : l0 = [] := List.length_eq_zero.mp (by rw [hlu]; exact hu0)
          subst hl0
          simp

theorem div_mul_mul_cancel (k a b : ℚ) (hk : k ≠ 0) :
    (a / k) * (k * b) = a * b := by
  field_simp
  ring

theorem finalize_scale (k : ℚ) (s : List ℚ) (raw y : Mat ℚ)
    (h : SDFNetwork.finalize s raw = Except.ok y) :
    SDFNetwork.finalize (s.map (fun b => k * b)) raw
      = Except.ok (y.map (fun r =>
          (r.take s.length).map (fun a => a / k) ++ r.drop s.length)) := by
  unfold SDFNetwork.finalize at h ⊢
  have hdiv : bcastDivMat (raw.map (fun r => r.take 1)) (s.map (fun b => k * b))
      = (bcastDivMat (raw.map (fun r => r.take 1)) s).map
          (fun l2 => l2.map (fun r => r.map (fun a => a / k))) := by
    unfold bcastDivMat
    exact mapE_map_post _ _ _
      (fun r => bcastOp_map_right _ _ _ _
        (fun a b => by rw [div_div, mul_comm k b]) r s) _
  rw [hdiv]
  cases h4 : bcastDivMat (raw.map (fun r => r.take 1)) s with
  | error e => rw [h4, errBind] at h; cases h
  | ok left =>
    rw [h4, okBind] at h
    rw [show ((Except.ok left).map
        (fun l2 => l2.map (fun r => r.map (fun a => a / k))))
      = Except.ok (left.map (fun r => r.map (fun a => a / k))) from rfl, okBind]
    have hlen : left.length = raw.length := by
      have h5 := mapE_ok_length _ _ _ h4
      simpa using h5
    unfold matCat at h ⊢
    rw [if_pos (by simp [hlen])] at h
    cases h
    rw [if_pos (by simp [hlen])]
    exact congrArg Except.ok (c4_final_zip k s raw left h4)

theorem bind_finalize_scale (k : ℚ) (s : List ℚ) (e : Except String (Mat ℚ))
    (y : Mat ℚ) (h : e.bind (fun x => SDFNetwork.finalize s x) = Except.ok y) :
    e.bind (fun x => SDFNetwork.finalize (s.map (fun b => k * b)) x)
      = Except.ok (y.map (fun r =>
          (r.take s.length).map (fun a => a / k) ++ r.drop s.length)) := by
  cases e with
  | error e2 => rw [errBind] at h; cases h
  | ok raw =>
    rw [okBind] at h ⊢
    exact finalize_scale k s raw y h

/-- C4 (corrected, amended form): a network whose Scale Vector is `k` times
another network's (all other parameters equal), evaluated on `x / k`, produces
the *same raw network output*; its final output agrees with the original's in
every trailing feature column, while the leading block (the broadcast of the
distance column against the scale tensor) is the original's *divided by `k`*,
not equal to it — line 103 divides by the scaled tensor `k * scale`, whereas
line 88 multiplied by it, so the division does not cancel against the
original's.  The claimed exact round-trip is refuted by `C4_counterexample`. -/
theorem C4_scale_roundtrip_amended (s2 k : ℚ) (net : SDFNet ℚ) (x : Mat ℚ)
    (features : Option (Mat ℚ)) (y : Mat ℚ) (hk : k ≠ 0)
    (hy : SDFNetwork.forward s2 net x features = Except.ok y) :
    SDFNetwork.forward s2 { net with scale := net.scale.map (fun b => k * b) }
        (x.map (fun r => r.map (fun a => a / k))) features
      = Except.ok (y.map (fun r =>
          (r.take net.scale.length).map (fun a => a / k)
            ++ r.drop net.scale.length)) := by
  obtain ⟨nd1, nd2, nd3, nd4, nsk, nmr, nfd, nef, ned, nsc, nnl, nly, nfi,
    npe, nlk, nlf, nact⟩ := net
  unfold SDFNetwork.forward at hy ⊢
  dsimp only at hy ⊢
  have hscale1 : bcastMulMat (x.map (fun r => r.map (fun a => a / k)))
      (nsc.map (fun b => k * b)) = bcastMulMat x nsc := by
    unfold bcastMulMat
    rw [mapE_map]
    exact mapE_congr _ _
      (fun r => bcastOp_map_map _ _ _ _
        (fun a b => div_mul_mul_cancel k a b hk) r nsc) x
  rw [hscale1]
  cases h1 : bcastMulMat x nsc with
  | error e => rw [h1, errBind] at hy; cases hy
  | ok scaled =>
    rw [h1, okBind] at hy
    rw [okBind]
    exact bind_finalize_scale k nsc _ y hy

/-- Degenerate placeholder layer for the unused feature-fusion slots of small
concrete test networks. -/
def trivLinQ : Linear ℚ :=
  { in_features := 0, out_features := 0, weight := [], bias := [] }

/-- A small constructible `SDFNet` state over `ℚ` — exactly the shape
`SDFNetwork.construct 3 1 1 2 [0] 0 … geometric_init=False …` produces when
every default-init weight draw is `0` and every bias draw is `1`: three layers
`6 → 1 → 1 → 1` (the first is the skip layer), zero weights, unit biases,
identity embedder (`multires = 0`) and `scale = [1]`.  Its activation is
irrelevant to every claim below because all weights are zero. -/
def c4net : SDFNet ℚ :=
  { d_in := 3, d_out := 1, d_hidden := 1, n_layers := 2, skip_in := [0]
    multires := 0, feature_dim := 0, embed_fn_fine := fun r => r
    embedded_input_dim := 3, scale := [1], num_layers := 4
    layers := [⟨6, 1, [[0, 0, 0, 0, 0, 0]], [1]⟩, ⟨1, 1, [[0]], [1]⟩,
      ⟨1, 1, [[0]], [1]⟩]
    feature_input_dim := 768, linear_pe := trivLinQ, linear_k := trivLinQ
    linear_fused := trivLinQ, activation := fun a => a }

/-- Counterexample to C4 as stated: `c4net` has Scale Vector `[1]`; the same
network with Scale Vector `2 * [1] = [2]` (all other parameters equal),
evaluated on `x / 2`, yields distance `1/2` where the original on
`x = [[1, 1, 1]]` yields `1`.  The raw network output is `1` in both runs (the
last layer has zero weight and bias `1`), so the discrepancy is exactly the
final division by the *scaled* tensor: the round trip is off by the factor
`k`. -/
theorem C4_counterexample :
    SDFNetwork.forward 1 c4net [[1, 1, 1]] none = Except.ok [[1]] ∧
    SDFNetwork.forward 1 { c4net with scale := c4net.scale.map (fun b => 2 * b) }
        [[1 / 2, 1 / 2, 1 / 2]] none = Except.ok [[1 / 2]] ∧
    (Except.ok [[(1 : ℚ)]] : Except String (Mat ℚ)) ≠ Except.ok [[1 / 2]] := by
  refine ⟨?_, ?_, ?_⟩
  · norm_num [c4net, SDFNetwork.forward, SDFNetwork.finalize,
      SDFNetwork.sdfLoop, bcastMulMat, bcastDivMat, bcastOp, matCat, mapE,
      dotL, Linear.applyRow, Linear.applyMat, mapMat, Except.bind, Except.map]
  · norm_num [c4net, SDFNetwork.forward, SDFNetwork.finalize,
      SDFNetwork.sdfLoop, bcastMulMat, bcastDivMat, bcastOp, matCat, mapE,
      dotL, Linear.applyRow, Linear.applyMat, mapMat, Except.bind, Except.map]
  · intro h
    rw [Except.ok.injEq] at h
    norm_num at h

/-- A minimal `SDFNet` state with an empty layer stack, used only to
instantiate the hypotheses of `C4_scale_roundtrip_amended` concretely. -/
def c4TrivialNet : SDFNet ℚ :=
  { d_in := 1, d_out := 1, d_hidden := 1, n_layers := 0, skip_in := []
    multires := 0, feature_dim := 0, embed_fn_fine := fun r => r
    embedded_input_dim := 1, scale := [1], num_layers := 2, layers := []
    feature_input_dim := 768, linear_pe := trivLinQ, linear_k := trivLinQ
    linear_fused := trivLinQ, activation := fun a => a }

/-- Witness for (the amended) C4 at `k = 2` on a concrete network. -/
theorem C4_scale_roundtrip_amended_witness :
    SDFNetwork.forward 1
        { c4TrivialNet with scale := c4TrivialNet.scale.map (fun b => (2 : ℚ) * b) }
        ([[(1 : ℚ)]].map (fun r => r.map (fun a => a / 2))) none
      = Except.ok ([[(1 : ℚ)]].map (fun r =>
          (r.take c4TrivialNet.scale.length).map (fun a => a / 2)
            ++ r.drop c4TrivialNet.scale.length)) :=
  C4_scale_roundtrip_amended 1 2 c4TrivialNet [[1]] none [[1]] (by norm_num)
    (by norm_num [c4TrivialNet, SDFNetwork.forward, SDFNetwork.finalize,
      SDFNetwork.sdfLoop, bcastMulMat, bcastDivMat, bcastOp, matCat, mapE,
      dotL, Linear.applyRow, Linear.applyMat, Except.bind, Except.map])

/-!  ## C3: geometric initialisation with an embedding in use  -/

theorem entry_mkLinear {β : Type} [Zero β] (inF outF : ℕ) (w : ℕ → ℕ → β)
    (b : ℕ → β) (i j : ℕ) (hi : i < outF) (hj : j < inF) :
    entry (mkLinear inF outF w b).weight i j = w i j := by
  unfold entry mkLinear
  rw [getD_map_range _ _ _ _ hi, getD_map_range _ _ _ _ hj]

theorem mkLinear_bias_const {β : Type} (inF outF : ℕ) (w : ℕ → ℕ → β) (c : β) :
    (mkLinear inF outF w (fun _ => c)).bias = List.replicate outF c := by
  unfold mkLinear
  simp [List.map_const']

theorem geomW_layer0 (skip_in : List ℤ) (multires num_layers : ℕ) (io : Bool)
    (embedded in_dim out_dim : ℕ) (mL sH : ℕ → ℝ) (g : ℕ → ℕ → ℕ → ℝ)
    (i j : ℕ) (hnl : (0 : ℕ) ≠ num_layers - 2) (hm : 0 < multires) :
    SDFNetwork.geomW skip_in multires num_layers io embedded in_dim out_dim
        mL sH g 0 i j
      = if 3 ≤ j then 0 else sH out_dim * g 0 i j := by
  unfold SDFNetwork.geomW
  rw [if_neg hnl, if_pos ⟨hm, rfl⟩]

theorem geomW_skip (skip_in : List ℤ) (multires num_layers : ℕ) (io : Bool)
    (embedded in_dim out_dim : ℕ) (mL sH : ℕ → ℝ) (g : ℕ → ℕ → ℕ → ℝ)
    (l i j : ℕ) (hlast : l ≠ num_layers - 2) (hl0 : l ≠ 0) (hm : 0 < multires)
    (hmem : (l : ℤ) ∈ skip_in) :
    SDFNetwork.geomW skip_in multires num_layers io embedded in_dim out_dim
        mL sH g l i j
      = if 3 < embedded ∧ in_dim - (embedded - 3) ≤ j then 0
        else sH out_dim * g l i j := by
  unfold SDFNetwork.geomW
  rw [if_neg hlast, if_neg (fun h => hl0 h.2), if_pos ⟨hm, hmem⟩]

theorem geomB_not_last (num_layers : ℕ) (io : Bool) (bias : ℝ) (l : ℕ)
    (hlast : l ≠ num_layers - 2) :
    SDFNetwork.geomB num_layers io bias l = 0 := by
  unfold SDFNetwork.geomB
  rw [if_neg hlast]

theorem mkLinear_in {β : Type} (a b : ℕ) (w : ℕ → ℕ → β) (c : ℕ → β) :
    (mkLinear a b w c).in_features = a := rfl

theorem mkLinear_out {β : Type} (a b : ℕ) (w : ℕ → ℕ → β) (c : ℕ → β) :
    (mkLinear a b w c).out_features = b := rfl

theorem sdfDims_zero (e f dh dout nl : ℕ) :
    (SDFNetwork.sdfDims e f dh dout nl).getD 0 0 = e + f := rfl

/-- Unfolding of `SDFNetwork.buildLayer` on the geometric-initialisation
branch. -/
theorem buildLayer_geom (d_hidden d_out n_layers : ℕ) (skip_in : List ℤ)
    (multires : ℕ) (bias : ℝ) (io : Bool) (feature_dim embedded : ℕ)
    (mL sH : ℕ → ℝ) (g wDef : ℕ → ℕ → ℕ → ℝ) (bDef : ℕ → ℕ → ℝ) (l : ℕ) :
    SDFNetwork.buildLayer d_hidden d_out n_layers skip_in multires bias true io
        feature_dim embedded mL sH g wDef bDef l
      = mkLinear
          ((SDFNetwork.sdfDims embedded feature_dim d_hidden d_out n_layers).getD l 0
            + (if (l : ℤ) ∈ skip_in then embedded else 0))
          ((SDFNetwork.sdfDims embedded feature_dim d_hidden d_out n_layers).getD (l + 1) 0)
          (SDFNetwork.geomW skip_in multires (n_layers + 2) io embedded
            ((SDFNetwork.sdfDims embedded feature_dim d_hidden d_out n_layers).getD l 0
              + (if (l : ℤ) ∈ skip_in then embedded else 0))
            ((SDFNetwork.sdfDims embedded feature_dim d_hidden d_out n_layers).getD (l + 1) 0)
            mL sH g l)
          (fun _ => SDFNetwork.geomB (n_layers + 2) io bias l) := rfl

/-- C3 (confirmed): with geometric initialisation on and an embedding in use
(`multires > 0`, `stdHidden = sqrt 2 / sqrt out_dim`,
`meanLast = sqrt pi / sqrt in_dim`), immediately after construction: layer 0
has zero bias and zero weight in every column of index `≥ 3` (all
encoded-frequency and feature columns), and its columns `0-2` equal
`sqrt 2 / sqrt out_dim` times the standard-normal draw; every skip layer has
zero bias and zero weight in its trailing `embedded_dim - 3` columns whenever
`embedded_dim > 3`, and (for a skip layer other than layer 0, which the
layer-0 branch of line 64 takes precedence over) its remaining entries equal
`sqrt 2 / sqrt out_dim` times the standard-normal draw. -/
theorem C3_geometric_init_embedding (d_in d_out d_hidden n_layers : ℕ)
    (skip_in : List ℤ) (multires : ℕ) (bias : ℝ) (scale : List ℝ) (wn io : Bool)
    (feature_dim : ℕ) (embed : List ℝ → List ℝ) (input_ch : ℕ) (act : ℝ → ℝ)
    (g wDef : ℕ → ℕ → ℕ → ℝ) (bDef : ℕ → ℕ → ℝ) (net : SDFNet ℝ)
    (hm : 0 < multires)
    (hok : SDFNetwork.construct d_in d_out d_hidden n_layers skip_in multires
        bias scale true wn io feature_dim embed input_ch act
        (fun n => Real.sqrt Real.pi / Real.sqrt n)
        (fun n => Real.sqrt 2 / Real.sqrt n) g wDef bDef = Except.ok net) :
    ((net.layers.getD 0 trivLin).bias
        = List.replicate (net.layers.getD 0 trivLin).out_features 0) ∧
    (∀ i j, i < (net.layers.getD 0 trivLin).out_features →
      j < (net.layers.getD 0 trivLin).in_features → 3 ≤ j →
      entry (net.layers.getD 0 trivLin).weight i j = 0) ∧
    (∀ i j, i < (net.layers.getD 0 trivLin).out_features → j < 3 →
      j < (net.layers.getD 0 trivLin).in_features →
      entry (net.layers.getD 0 trivLin).weight i j
        = Real.sqrt 2 / Real.sqrt ((net.layers.getD 0 trivLin).out_features)
            * g 0 i j) ∧
    (∀ l : ℕ, (l : ℤ) ∈ skip_in →
      ((net.layers.getD l trivLin).bias
          = List.replicate (net.layers.getD l trivLin).out_features 0) ∧
      (∀ i j, i < (net.layers.getD l trivLin).out_features →
        j < (net.layers.getD l trivLin).in_features →
        3 < net.embedded_input_dim →
        (net.layers.getD l trivLin).in_features
            - (net.embedded_input_dim - 3) ≤ j →
        entry (net.layers.getD l trivLin).weight i j = 0) ∧
      (l ≠ 0 → ∀ i j, i < (net.layers.getD l trivLin).out_features →
        j < (net.layers.getD l trivLin).in_features →
        (net.embedded_input_dim ≤ 3 ∨
          j < (net.layers.getD l trivLin).in_features
            - (net.embedded_input_dim - 3)) →
        entry (net.layers.getD l trivLin).weight i j
          = Real.sqrt 2 / Real.sqrt ((net.layers.getD l trivLin).out_features)
              * g l i j)) := by
  unfold SDFNetwork.construct at hok
  by_cases hc1 : listMaxD skip_in (-1) ≥ (n_layers : ℤ)
      ∨ listMinD skip_in (n_layers : ℤ) < 0
  · rw [if_pos hc1] at hok; cases hok
  rw [if_neg hc1] at hok
  by_cases hc2 : skip_in = [] ∨ listMaxD skip_in (-1) ≥ (n_layers : ℤ) - 1
  · rw [if_pos hc2] at hok; cases hok
  rw [if_neg hc2] at hok
  cases hok
  rw [not_or] at hc1 hc2
  have hmax : listMaxD skip_in (-1) < (n_layers : ℤ) - 1 := by omega
  have hmin : (0 : ℤ) ≤ listMinD skip_in (n_layers : ℤ) := by omega
  rw [listMaxD_lt_iff] at hmax
  rw [le_listMinD_iff] at hmin
  obtain ⟨s0, hs0⟩ := List.exists_mem_of_ne_nil skip_in hc2.1
  have hn2 : 2 ≤ n_layers := by
    have h1 := hmax.2 s0 hs0
    have h2 := hmin.2 s0 hs0
    omega
  dsimp only
  simp only [if_pos hm]
  have h0neq : (0 : ℕ) ≠ (n_layers + 2) - 2 := by omega
  refine ⟨?_, ?_, ?_, ?_⟩
  · rw [getD_map_range _ _ _ _ (show 0 < n_layers + 1 by omega), buildLayer_geom,
      mkLinear_bias_const, geomB_not_last _ _ _ _ h0neq, mkLinear_out]
  · rw [getD_map_range _ _ _ _ (show 0 < n_layers + 1 by omega), buildLayer_geom]
    intro i j hi hj hj3
    rw [mkLinear_out] at hi
    rw [mkLinear_in] at hj
    rw [entry_mkLinear _ _ _ _ i j hi hj, geomW_layer0 _ _ _ _ _ _ _ _ _ _ _ _
      h0neq hm, if_pos hj3]
  · rw [getD_map_range _ _ _ _ (show 0 < n_layers + 1 by omega), buildLayer_geom]
    intro i j hi hj3 hj
    rw [mkLinear_out] at hi
    rw [mkLinear_in] at hj
    rw [entry_mkLinear _ _ _ _ i j hi hj, geomW_layer0 _ _ _ _ _ _ _ _ _ _ _ _
      h0neq hm, if_neg (by omega), mkLinear_out]
  · intro l hmem
    have hlZ := hmax.2 (l : ℤ) hmem
    have hl1 : l < n_layers + 1 := by omega
    have hlast : l ≠ (n_layers + 2) - 2 := by omega
    rw [getD_map_range _ _ _ _ hl1, buildLayer_geom]
    refine ⟨?_, ?_, ?_⟩
    · rw [mkLinear_bias_const, geomB_not_last _ _ _ _ hlast, mkLinear_out]
    · intro i j hi hj hemb hjge
      rw [mkLinear_in] at hj hjge
      rw [mkLinear_out] at hi
      rw [entry_mkLinear _ _ _ _ i j hi hj]
      by_cases hl0 : l = 0
      · subst hl0
        rw [geomW_layer0 _ _ _ _ _ _ _ _ _ _ _ _ h0neq hm]
        have hIN : (SDFNetwork.sdfDims input_ch feature_dim d_hidden d_out
            n_layers).getD 0 0 + (if ((0 : ℕ) : ℤ) ∈ skip_in then input_ch else 0)
            = input_ch + feature_dim + input_ch := by
          rw [sdfDims_zero, if_pos hmem]
        rw [hIN] at hjge
        rw [if_pos (by omega)]
      · rw [geomW_skip _ _ _ _ _ _ _ _ _ _ _ _ _ hlast hl0 hm hmem,
          if_pos ⟨hemb, hjge⟩]
    · intro hl0 i j hi hj hcase
      rw [mkLinear_in] at hj hcase
      rw [mkLinear_out] at hi
      rw [entry_mkLinear _ _ _ _ i j hi hj,
        geomW_skip _ _ _ _ _ _ _ _ _ _ _ _ _ hlast hl0 hm hmem,
        if_neg (by omega), mkLinear_out]

/-- Minimal default `SDFNet` over `ℝ`, used only as a `getD` fallback. -/
def trivNetR : SDFNet ℝ :=
  { d_in := 0, d_out := 0, d_hidden := 0, n_layers := 0, skip_in := []
    multires := 0, feature_dim := 0, embed_fn_fine := fun r => r
    embedded_input_dim := 0, scale := [], num_layers := 0, layers := []
    feature_input_dim := 0, linear_pe := trivLin, linear_k := trivLin
    linear_fused := trivLin, activation := fun a => a }

/-- The network constructed by `SDFNetwork.construct` at a concrete
geometric-init configuration with an embedding in use, for the C3 witness. -/
noncomputable def c3WitnessNet : SDFNet ℝ :=
  (SDFNetwork.construct 3 1 2 3 [1] 1 (1/2 : ℝ) [1, 1, 2] true true false 2
    (fun r => r) 9 (fun a => a)
    (fun n => Real.sqrt Real.pi / Real.sqrt n)
    (fun n => Real.sqrt 2 / Real.sqrt n)
    (fun _ _ _ => 0) (fun _ _ _ => 0) (fun _ _ => 0)).toOption.getD trivNetR

/-- Witness for C3 at a concrete configuration (`n_layers = 3`,
`skip_in = [1]`, `multires = 1`, embedder width 9). -/
theorem C3_geometric_init_embedding_witness :
    (c3WitnessNet.layers.getD 0 trivLin).bias
      = List.replicate (c3WitnessNet.layers.getD 0 trivLin).out_features 0 :=
  (C3_geometric_init_embedding 3 1 2 3 [1] 1 (1/2 : ℝ) [1, 1, 2] true false 2
    (fun r => r) 9 (fun a => a) (fun _ _ _ => 0) (fun _ _ _ => 0)
    (fun _ _ => 0) c3WitnessNet (by decide) rfl).1

/-!  ## C7: Rendering Network mode dispatch  -/

theorem sigmoidR_pos (x : ℝ) : 0 < sigmoidR x := by
  unfold sigmoidR
  positivity

theorem sigmoidR_lt_one (x : ℝ) : sigmoidR x < 1 := by
  unfold sigmoidR
  rw [div_lt_one (by positivity)]
  have h := Real.exp_pos (-x)
  linarith

theorem mapMat_length {β : Type} (f : β → β) (m : Mat β) :
    (mapMat f m).length = m.length := by
  simp [mapMat]

theorem mapMat_widths {β : Type} (f : β → β) (m : Mat β) (n : ℕ)
    (h : ∀ r ∈ m, r.length = n) : ∀ r ∈ mapMat f m, r.length = n := by
  intro r hr
  unfold mapMat at hr
  obtain ⟨r0, hr0, rfl⟩ := List.mem_map.mp hr
  simp [h r0 hr0]

theorem applyMat_mkLinear_ok (inF outF : ℕ) (w : ℕ → ℕ → ℝ) (b : ℕ → ℝ) :
    ∀ m : Mat ℝ, (∀ r ∈ m, r.length = inF) →
      ∃ y, (mkLinear inF outF w b).applyMat m = Except.ok y ∧
        y.length = m.length ∧ ∀ r ∈ y, r.length = outF := by
  intro m
  induction m with
  | nil => exact fun _ => ⟨[], rfl, rfl, by simp⟩
  | cons r t ih =>
    intro hm
    obtain ⟨y, hy, hyl, hyw⟩ := ih (fun r2 hr2 => hm r2 (List.mem_cons_of_mem _ hr2))
    have hrow : (mkLinear inF outF w b).applyRow r = Except.ok
        (List.zipWith (fun wrow bb => dotL wrow r + bb)
          (mkLinear inF outF w b).weight (mkLinear inF outF w b).bias) := by
      unfold Linear.applyRow
      rw [if_pos]
      rw [mkLinear_in]
      exact hm r (List.mem_cons_self _ _)
    refine ⟨List.zipWith (fun wrow bb => dotL wrow r + bb)
        (mkLinear inF outF w b).weight (mkLinear inF outF w b).bias :: y, ?_, ?_, ?_⟩
    · show mapE (fun r2 => (mkLinear inF outF w b).applyRow r2) (r :: t) = _
      rw [mapE, hrow, okBind]
      have hy2 : mapE (fun r2 => (mkLinear inF outF w b).applyRow r2) t
          = Except.ok y := hy
      rw [hy2, okBind]
    · simp [hyl]
    · intro r2 hr2
      rcases List.mem_cons.mp hr2 with rfl | hr2
      · simp [mkLinear, List.length_zipWith]
      · exact hyw r2 hr2

theorem renderLoop_chain_ok (dims : ℕ → ℕ) (w : ℕ → ℕ → ℕ → ℝ)
    (b : ℕ → ℕ → ℝ) (numL : ℕ) :
    ∀ (c t : ℕ) (m : Mat ℝ), (∀ r ∈ m, r.length = dims t) →
      ∃ y, RenderingNetwork.renderLoop numL t
          ((List.range' t c).map
            (fun l => mkLinear (dims l) (dims (l + 1)) (w l) (b l))) (some m)
        = Except.ok (some y) ∧ y.length = m.length
          ∧ ∀ r ∈ y, r.length = dims (t + c) := by
  intro c
  induction c with
  | zero =>
    intro t m hm
    exact ⟨m, rfl, rfl, by simpa using hm⟩
  | succ c ih =>
    intro t m hm
    rw [List.range'_succ, List.map_cons]
    obtain ⟨z, hz, hzl, hzw⟩ := applyMat_mkLinear_ok (dims t) (dims (t + 1))
      (w t) (b t) m hm
    have hnext : ∀ r ∈ (if t < numL - 2 then mapMat relu z else z),
        r.length = dims (t + 1) := by
      split_ifs
      · exact mapMat_widths _ _ _ hzw
      · exact hzw
    obtain ⟨y, hy, hyl, hyw⟩ := ih (t + 1)
      (if t < numL - 2 then mapMat relu z else z) hnext
    refine ⟨y, ?_, ?_, ?_⟩
    · rw [RenderingNetwork.renderLoop, hz, okBind, hy]
    · rw [hyl]
      split_ifs
      · rw [mapMat_length, hzl]
      · rw [hzl]
    · intro r hr
      have := hyw r hr
      rwa [show t + 1 + c = t + (c + 1) by omega] at this

theorem replicate_append_getD_last (nl dh dout : ℕ) :
    (List.replicate nl dh ++ [dout]).getD nl 0 = dout := by
  induction nl with
  | zero => rfl
  | succ n ih => rw [List.replicate_succ, List.cons_append, List.getD_cons_succ, ih]

theorem renderDims_last (df di dout dh nl ifd mv ic : ℕ) :
    (RenderingNetwork.renderDims df di dout dh nl ifd mv ic).getD (nl + 1) 0
      = dout := by
  unfold RenderingNetwork.renderDims
  rw [List.getD_cons_succ]
  exact replicate_append_getD_last nl dh dout

theorem renderInput_unknown (mode : String) (p n v fv f : Mat ℝ)
    (h : ¬(mode = "idr" ∨ mode = "no_view_dir" ∨ mode = "no_normal")) :
    RenderingNetwork.renderInput mode p n v fv f = Except.ok none := by
  push_neg at h
  unfold RenderingNetwork.renderInput
  rw [if_neg h.1, if_neg h.2.1, if_neg h.2.2]

/-- C7 (confirmed): a Rendering Network constructed with a mode outside the
three recognised values fails every forward call with an error (the `None`
mode-input reaches the first layer), rather than silently returning `None`;
for a recognised mode with matching input shapes the call succeeds, and with
squeeze-out set every entry of the returned `[B, d_out]` output lies strictly
in `(0, 1)` (it is `torch.sigmoid` of the last layer's output). -/
theorem C7_rendering_mode_dispatch (d_feature d_in d_out d_hidden n_layers : ℕ)
    (wn : Bool) (multires_view : ℕ) (ifd : ℕ) (embed_view : List ℝ → List ℝ)
    (input_ch : ℕ) (w : ℕ → ℕ → ℕ → ℝ) (b : ℕ → ℕ → ℝ)
    (points normals view_dirs feature_vectors features : Mat ℝ)
    (mode : String) (X : Mat ℝ)
    (hrec : mode = "idr" ∨ mode = "no_view_dir" ∨ mode = "no_normal")
    (hX : RenderingNetwork.renderInput mode points normals
        (if 0 < multires_view then view_dirs.map embed_view else view_dirs)
        feature_vectors features = Except.ok (some X))
    (hXw : ∀ r ∈ X, r.length
        = d_in + d_feature + ifd
          + (if 0 < multires_view then input_ch - 3 else 0)) :
    (∀ badmode : String,
      ¬(badmode = "idr" ∨ badmode = "no_view_dir" ∨ badmode = "no_normal") →
      (RenderingNetwork.forward
        (RenderingNetwork.construct d_feature badmode d_in d_out d_hidden
          n_layers wn multires_view true ifd embed_view input_ch w b)
        points normals view_dirs feature_vectors features).isOk = false) ∧
    (∃ y, RenderingNetwork.forward
        (RenderingNetwork.construct d_feature mode d_in d_out d_hidden n_layers
          wn multires_view true ifd embed_view input_ch w b)
        points normals view_dirs feature_vectors features
      = Except.ok (some y) ∧ y.length = X.length
      ∧ (∀ r ∈ y, r.length = d_out)
      ∧ (∀ r ∈ y, ∀ e ∈ r, 0 < e ∧ e < 1)) := by
  constructor
  · intro badmode hbad
    unfold RenderingNetwork.forward
    dsimp only [RenderingNetwork.construct]
    rw [renderInput_unknown badmode _ _ _ _ _ hbad, okBind]
    rw [List.range_eq_range', List.range'_succ, List.map_cons]
    rfl
  · unfold RenderingNetwork.forward
    dsimp only [RenderingNetwork.construct]
    rw [RenderingNetwork.applyEmbedView_if, hX, okBind]
    rw [List.range_eq_range']
    obtain ⟨y, hy, hylen, hyw⟩ := renderLoop_chain_ok
      (fun l => (RenderingNetwork.renderDims d_feature d_in d_out d_hidden
        n_layers ifd multires_view input_ch).getD l 0)
      w b (n_layers + 2) (n_layers + 1) 0 X (fun r hr => hXw r hr)
    rw [Nat.zero_add] at hyw
    have hw2 : ∀ r ∈ y, r.length = d_out := by
      intro r2 hr2
      rw [hyw r2 hr2]
      exact renderDims_last d_feature d_in d_out d_hidden n_layers ifd
        multires_view input_ch
    refine ⟨mapMat sigmoidR y, ?_, ?_, mapMat_widths _ _ _ hw2, ?_⟩
    · rw [hy, okBind]
      rfl
    · rw [mapMat_length, hylen]
    · intro r hr e he
      unfold mapMat at hr
      obtain ⟨r0, _, rfl⟩ := List.mem_map.mp hr
      obtain ⟨t0, _, rfl⟩ := List.mem_map.mp he
      exact ⟨sigmoidR_pos t0, sigmoidR_lt_one t0⟩

/-- Witness for C7: concrete one-layer configuration (`d_in = 9` matching the
`idr` concatenation of point, view and normal, no features, no view
embedding); the unknown-mode half is instantiated at mode `"xyz"`. -/
theorem C7_rendering_mode_dispatch_witness :
    (RenderingNetwork.forward
      (RenderingNetwork.construct 0 "xyz" 9 1 1 0 true 0 true 0 (fun r => r) 3
        (fun _ _ _ => 0) (fun _ _ => 0))
      [[0, 0, 0]] [[0, 0, 0]] [[0, 0, 0]] [[]] [[]]).isOk = false :=
  (C7_rendering_mode_dispatch 0 9 1 1 0 true 0 0 (fun r => r) 3
    (fun _ _ _ => 0) (fun _ _ => 0) [[0, 0, 0]] [[0, 0, 0]] [[0, 0, 0]] [[]]
    [[]] "idr" [[0, 0, 0, 0, 0, 0, 0, 0, 0]] (Or.inl rfl) (by rfl)
    (by intro r hr; rw [List.mem_singleton.mp hr]; rfl)).1 "xyz" (by decide)

end Fields
